import Mathlib

namespace DenoWorker

/-!
Verification of the `deno-http-worker` Rust supervisor (`src/rs/src/lib.rs`).

We shallowly embed the pure/algorithmic parts of the library:
* `prepareRunFlags` — the sandbox permission-flag composer
  (`DenoHTTPWorker::prepare_run_flags`);
* `buildRequestHeaders` — the header-conflict policy of
  `DenoHTTPWorker::request`;
* `newFromUrlAllowRead` — the allow-read value built by
  `DenoHTTPWorker::new_from_url`;
* `spawnDenoProcess` — the argument assembly and indexing of
  `DenoHTTPWorker::spawn_deno_process`;
* `createWorkerT` — the step ordering / error propagation of
  `DenoHTTPWorker::create_worker`, instrumented with a trace;
* `stepAct` / `runActs` — a transition system for the mutex-guarded
  `Option<Child>` slot shared by the exit-monitor task, `terminate` and
  `shutdown`, recording broadcast sends of exit notifications.
-/

/-! ## Comma-separated allow-list values

Deno parses `--allow-read=a,b` as the list `[a, b]`.  We model the value of
an enumerated allow flag as its comma-split at the character-list level. -/

/-- Split a character list at every comma, the way Deno parses the value of
an enumerated `--allow-read=`/`--allow-write=` flag. -/
def splitComma : List Char → List (List Char)
  | [] => [[]]
  | c :: cs =>
    match splitComma cs with
    | [] => [[]]
    | g :: gs => if c = ',' then [] :: g :: gs else (c :: g) :: gs

/-! ## Permission-flag composer (`prepare_run_flags`, lib.rs:131-165)

The Rust function walks the caller's `run_flags` once, mutably.  For each
flag it records whether a read / write grant was seen (`--allow-read`,
`--allow-write`, `--allow-all`, or the enumerated `=`-forms) and appends
`,{value}` to every enumerated flag it meets.  After the walk it pushes a
fresh `--allow-read={value}` / `--allow-write={value}` for each category
that was never seen. -/

/-- One iteration of the `for flag in &mut run_flags` loop body
(lib.rs:140-155): returns the possibly-mutated flag and the
`(read_found, write_found)` contributions of this flag. -/
def processFlag (flag : String) (allowReadValue allowWriteValue : String) :
    String × Bool × Bool :=
  let readFound0 := flag = "--allow-read" ∨ flag = "--allow-all"
  let writeFound0 := flag = "--allow-write" ∨ flag = "--allow-all"
  let s1 :=
    if "--allow-read=".data.isPrefixOf flag.data then
      (flag ++ "," ++ allowReadValue, true)
    else (flag, decide readFound0)
  let s2 :=
    if "--allow-write=".data.isPrefixOf s1.1.data then
      (s1.1 ++ "," ++ allowWriteValue, true)
    else (s1.1, decide writeFound0)
  (s2.1, s1.2, s2.2)

/-- The loop of `prepare_run_flags` followed by the trailing pushes,
with the two `found` accumulators made explicit. -/
def prepareGo (allowReadValue allowWriteValue : String) :
    List String → Bool → Bool → List String
  | [], readFound, writeFound =>
    (if !readFound then ["--allow-read=" ++ allowReadValue] else []) ++
      (if !writeFound then ["--allow-write=" ++ allowWriteValue] else [])
  | f :: fs, readFound, writeFound =>
    let p := processFlag f allowReadValue allowWriteValue
    p.1 :: prepareGo allowReadValue allowWriteValue fs
      (readFound || p.2.1) (writeFound || p.2.2)

/-- `DenoHTTPWorker::prepare_run_flags` (lib.rs:131-165).  The write value
is always the socket path; the read value is supplied by the caller
(`new` passes the socket path, `new_from_url` passes socket path ++ "," ++
stripped url). -/
def prepareRunFlags (runFlags : List String)
    (allowReadValue : String) (socketFile : String) : List String :=
  prepareGo allowReadValue socketFile runFlags false false

/-- Does this flag count as a read grant in the loop's bookkeeping? -/
def readFoundFlag (f : String) : Bool :=
  f = "--allow-read" || f = "--allow-all" ||
    "--allow-read=".data.isPrefixOf f.data

/-- Does this flag count as a write grant in the loop's bookkeeping? -/
def writeFoundFlag (f : String) : Bool :=
  f = "--allow-write" || f = "--allow-all" ||
    "--allow-write=".data.isPrefixOf f.data

/-- What the loop body does to a single flag, stated directly: enumerated
`--allow-read=` flags get `,{read value}` appended, enumerated
`--allow-write=` flags get `,{write value}` appended, all other flags are
left alone. -/
def mutateFlag (f arv awv : String) : String :=
  if "--allow-read=".data.isPrefixOf f.data then f ++ "," ++ arv
  else if "--allow-write=".data.isPrefixOf f.data then f ++ "," ++ awv
  else f

/-- Deno grants read access to path `p` under `flags` if some flag is the
unrestricted `--allow-read`, the catch-all `--allow-all`, or an enumerated
`--allow-read=` flag whose comma-separated value list contains `p`
(13 = length of the marker `--allow-read=`). -/
def grantsRead (flags : List String) (p : String) : Prop :=
  ∃ f ∈ flags, f = "--allow-read" ∨ f = "--allow-all" ∨
    ("--allow-read=".data.isPrefixOf f.data = true ∧
      p.data ∈ splitComma (f.data.drop 13))

/-- Same for write access (14 = length of the marker `--allow-write=`). -/
def grantsWrite (flags : List String) (p : String) : Prop :=
  ∃ f ∈ flags, f = "--allow-write" ∨ f = "--allow-all" ∨
    ("--allow-write=".data.isPrefixOf f.data = true ∧
      p.data ∈ splitComma (f.data.drop 14))

/-! ## Header-conflict policy (`request`, lib.rs:297-338) -/

/-- Key lowercasing used for the conflict test (Rust `key.to_lowercase()`). -/
def lowerStr (s : String) : String := ⟨s.data.map Char.toLower⟩

/-- The transformation `DenoHTTPWorker::request` applies to each
caller-supplied header (lib.rs:312-321): a key that lowercases to `host`
is renamed `X-Deno-Worker-Host`, one that lowercases to `connection` is
renamed `X-Deno-Worker-Connection`, anything else passes through. -/
def transformHeader (kv : String × String) : String × String :=
  if lowerStr kv.1 = "host" then ("X-Deno-Worker-Host", kv.2)
  else if lowerStr kv.1 = "connection" then ("X-Deno-Worker-Connection", kv.2)
  else kv

/-- The headers of the outgoing request: the out-of-band URL header
(lib.rs:309) followed by the transformed caller headers. -/
def buildRequestHeaders (url : String) (headers : List (String × String)) :
    List (String × String) :=
  ("X-Deno-Worker-URL", url) :: headers.map transformHeader

/-! ## Load-by-reference allow value (`new_from_url`, lib.rs:88-102) -/

/-- Rust `url.replace("file://", "")`: remove every (leftmost,
non-overlapping) occurrence of `file://`. -/
def replaceFileScheme : List Char → List Char
  | 'f' :: 'i' :: 'l' :: 'e' :: ':' :: '/' :: '/' :: rest =>
    replaceFileScheme rest
  | c :: cs => c :: replaceFileScheme cs
  | [] => []

def stripFileScheme (url : String) : String := ⟨replaceFileScheme url.data⟩

/-- The `allow_read_value` built by `DenoHTTPWorker::new_from_url`
(lib.rs:93-94): always `{socket},{url with file:// removed}`, whatever the
scheme of `url`. -/
def newFromUrlAllowRead (socketFile url : String) : String :=
  socketFile ++ "," ++ stripFileScheme url

/-! ## Process launcher (`spawn_deno_process`, lib.rs:167-196) -/

inductive SpawnResult
  | panicked
  | spawnErr
  | spawned (cmd : String) (args : List String)
deriving DecidableEq

/-- `DenoHTTPWorker::spawn_deno_process` (lib.rs:167-196).  The Rust code
indexes `options.deno_executable[0]` — on an empty vector this panics,
modelled by `panicked`; otherwise it assembles
`exe[1..] ++ ["run"] ++ run_flags ++ [bootstrap] ++ script_args` and
spawns, which either succeeds or surfaces the io error (`spawnErr`,
driven here by the abstract environment bit `spawnOk`). -/
def spawnDenoProcess (spawnOk : Bool) (denoExecutable : List String)
    (runFlags : List String) (bootstrapScriptPath : String)
    (scriptArgs : List String) : SpawnResult :=
  match denoExecutable.get? 0 with
  | none => SpawnResult.panicked
  | some cmd =>
    if spawnOk then
      SpawnResult.spawned cmd (denoExecutable.drop 1 ++
        "run" :: runFlags ++ bootstrapScriptPath :: scriptArgs)
    else SpawnResult.spawnErr

/-! ## Construction (`create_worker`, lib.rs:104-129) -/

inductive WErr
  | io
  | socketTimeout
  | httpClient
deriving DecidableEq

inductive CStep
  | spawn
  | waitSocket
  | warmup
deriving DecidableEq

/-- Abstract environment for one construction attempt. -/
structure CreateEnv where
  spawnOk : Bool
  socketAppears : Bool
  warmOk : Bool
  childExitsEarly : Bool
deriving DecidableEq

/-- `create_worker` (lib.rs:104-129) instrumented with the steps it
attempts: the `?`-chain spawn → `wait_for_socket` → `warm_request`,
stopping at the first failure.  The third component records whether the
spawned subprocess is still running when `create_worker` returns: no
branch of `create_worker` kills the child — the monitor task only takes
it and waits on it — so after a successful spawn the child keeps running
unless it exits by itself (`childExitsEarly`). -/
def createWorkerT (env : CreateEnv) :
    List CStep × Except WErr Unit × Bool :=
  if env.spawnOk = false then
    ([CStep.spawn], Except.error WErr.io, false)
  else if env.socketAppears = false then
    ([CStep.spawn, CStep.waitSocket], Except.error WErr.socketTimeout,
      !env.childExitsEarly)
  else if env.warmOk = false then
    ([CStep.spawn, CStep.waitSocket, CStep.warmup],
      Except.error WErr.httpClient, !env.childExitsEarly)
  else
    ([CStep.spawn, CStep.waitSocket, CStep.warmup], Except.ok (),
      !env.childExitsEarly)

/-! ## Process slot, exit monitor, terminate, shutdown
(lib.rs:198-238 and lib.rs:353-389) -/

/-- Result of `child.wait().await` as the monitor observes it: `ok code`
models `Ok(status)` carrying `status.code()`; `err` models `Err(_)`. -/
inductive WaitRes
  | ok (code : Option Int)
  | err
deriving DecidableEq

/-- The monitor's classification of the wait result (lib.rs:223-226). -/
def classify : WaitRes → Option Int × String
  | WaitRes.ok c => (c, "")
  | WaitRes.err => (none, "SIGKILL")

/-- State shared between the worker handle and its background tasks: the
`Arc<Mutex<Option<Child>>>` slot, whether the OS process is alive, whether
the socket file exists, and the exit notifications sent on the broadcast
channel so far, in order. -/
structure WorkerState where
  slot : Option Nat
  running : Bool
  socket : Bool
  sent : List (Option Int × String)
deriving DecidableEq

/-- The three actors that touch the slot: `monitor w` is the exit monitor
task's body completing with wait result `w`, `terminate` is the task
spawned by `terminate()`, `shutdown` is `shutdown()`. -/
inductive Act
  | monitor (w : WaitRes)
  | terminate
  | shutdown
deriving DecidableEq

/-- One actor's body run atomically (the mutex serializes access to the
slot, and after `take()` the taker owns the child exclusively):
* the monitor (lib.rs:217-230) takes the slot; only if it received a child
  does it wait, best-effort remove the socket file and send one classified
  notification;
* `terminate` (lib.rs:353-366) takes the slot and kills the child if it
  received one, then — unconditionally, outside the `if let` — removes
  the socket file and sends `(Some(9), "SIGKILL".to_string())`;
* `shutdown` (lib.rs:368-389) locks the slot and signals the child `as_mut`
  if present: it never takes the slot and never sends. -/
def stepAct (s : WorkerState) : Act → WorkerState
  | Act.monitor w =>
    match s.slot with
    | some _ =>
      { slot := none, running := false, socket := false,
        sent := s.sent ++ [classify w] }
    | none => { s with slot := none }
  | Act.terminate =>
    match s.slot with
    | some _ =>
      { slot := none, running := false, socket := false,
        sent := s.sent ++ [(some 9, "SIGKILL")] }
    | none =>
      { s with
        slot := none
        socket := false
        sent := s.sent ++ [(some 9, "SIGKILL")] }
  | Act.shutdown => s

def runActs : WorkerState → List Act → WorkerState
  | s, [] => s
  | s, a :: as => runActs (stepAct s a) as

/-- The state right after `monitor_process` returns: child in the slot,
process alive, nothing sent. -/
def initState : WorkerState :=
  { slot := some 0, running := true, socket := true, sent := [] }

def isTerminate : Act → Bool
  | Act.terminate => true
  | _ => false

/-- How many of the actions are terminate runs. -/
def countTerminate (acts : List Act) : Nat := acts.countP isTerminate

/-- Did this action take the child out of the slot (and hence wait on or
kill the process)? -/
def takesChild (s : WorkerState) : Act → Bool
  | Act.monitor _ => s.slot.isSome
  | Act.terminate => s.slot.isSome
  | Act.shutdown => false

def countTakes : WorkerState → List Act → Nat
  | _, [] => 0
  | s, a :: as =>
    (if takesChild s a then 1 else 0) + countTakes (stepAct s a) as

instance grantsReadDecidable (flags : List String) (p : String) :
    Decidable (grantsRead flags p) := by
  unfold grantsRead
  infer_instance

instance grantsWriteDecidable (flags : List String) (p : String) :
    Decidable (grantsWrite flags p) := by
  unfold grantsWrite
  infer_instance

theorem splitComma_ne_nil (cs : List Char) : splitComma cs ≠ [] := by
  cases cs with
  | nil => simp [splitComma]
  | cons c cs =>
    simp only [splitComma]
    rcases h : splitComma cs with _ | ⟨g, gs⟩
    · simp
    · by_cases hc : c = ',' <;> simp [hc]

theorem splitComma_append (xs ys : List Char) :
    splitComma (xs ++ ',' :: ys) = splitComma xs ++ splitComma ys := by
  induction xs with
  | nil =>
    simp only [List.nil_append, splitComma]
    rcases h : splitComma ys with _ | ⟨g, gs⟩
    · exact absurd h (splitComma_ne_nil ys)
    · simp
  | cons c cs ih =>
    rcases h : splitComma cs with _ | ⟨g, gs⟩
    · exact absurd h (splitComma_ne_nil cs)
    · rcases h2 : splitComma ys with _ | ⟨g2, gs2⟩
      · exact absurd h2 (splitComma_ne_nil ys)
      · simp only [List.cons_append, splitComma, List.append_eq]
        rw [ih, h, h2]
        by_cases hc : c = ',' <;> simp [hc]

theorem splitComma_of_not_mem (xs : List Char) (h : ',' ∉ xs) :
    splitComma xs = [xs] := by
  induction xs with
  | nil => simp [splitComma]
  | cons c cs ih =>
    simp only [List.mem_cons, not_or] at h
    simp only [splitComma, ih h.2]
    have hc : ¬ c = ',' := fun hcc => h.1 hcc.symm
    simp [hc]

theorem data_of_append_comma (f v : String) :
    (f ++ "," ++ v).data = f.data ++ ',' :: v.data := by
  have h1 := String.data_append (f ++ ",") v
  have h2 := String.data_append f ","
  rw [h1, h2]
  simp

/-- A flag that starts with `--allow-read=` cannot, even after having text
appended to it, start with `--allow-write=`: the two markers disagree at
character 8. -/
theorem no_write_after_read (l m : List Char)
    (h : "--allow-read=".data.isPrefixOf l = true) :
    "--allow-write=".data.isPrefixOf (l ++ m) = false := by
  rw [ List.isPrefixOf_iff_prefix] at h
  obtain ⟨t, ht⟩ := h
  subst ht
  by_contra hw
  rw [Bool.not_eq_false, List.isPrefixOf_iff_prefix] at hw
  obtain ⟨u, hu⟩ := hw
  have h2 := congrArg (List.take 13) hu
  rw [ List.take_append_eq_append_take, List.append_assoc,
    List.take_append_eq_append_take] at h2
  have hA : ("--allow-write=".data).take 13 = "--allow-write".data := by decide
  have hB : ("--allow-read=".data).take 13 = "--allow-read=".data := by decide
  have hC : (13 - ("--allow-write=".data).length) = 0 := by decide
  have hD : (13 - ("--allow-read=".data).length) = 0 := by decide
  rw [hA, hB, hC, hD, List.take_zero, List.take_zero, List.append_nil,
    List.append_nil] at h2
  exact absurd h2 (by decide)

/-- Symmetrically, a flag that starts with `--allow-write=` never starts
with `--allow-read=`. -/
theorem no_read_after_write (l m : List Char)
    (h : "--allow-write=".data.isPrefixOf l = true) :
    "--allow-read=".data.isPrefixOf (l ++ m) = false := by
  rw [ List.isPrefixOf_iff_prefix] at h
  obtain ⟨t, ht⟩ := h
  subst ht
  by_contra hr
  rw [Bool.not_eq_false, List.isPrefixOf_iff_prefix] at hr
  obtain ⟨u, hu⟩ := hr
  have h2 := congrArg (List.take 13) hu
  rw [ List.take_append_eq_append_take, List.append_assoc,
    List.take_append_eq_append_take] at h2
  have hA : ("--allow-read=".data).take 13 = "--allow-read=".data := by decide
  have hB : ("--allow-write=".data).take 13 = "--allow-write".data := by decide
  have hC : (13 - ("--allow-read=".data).length) = 0 := by decide
  have hD : (13 - ("--allow-write=".data).length) = 0 := by decide
  rw [hA, hB, hC, hD, List.take_zero, List.take_zero, List.append_nil,
    List.append_nil] at h2
  exact absurd h2 (by decide)

theorem not_pre_of_eq_false {l m : List Char} (h : l.isPrefixOf m = false) :
    ¬ (l <+: m) := by
  intro hc
  have h2 := ( List.isPrefixOf_iff_prefix).2 hc
  rw [h] at h2
  cases h2

theorem processFlag_eq (f arv awv : String) :
    processFlag f arv awv =
      (mutateFlag f arv awv, readFoundFlag f, writeFoundFlag f) := by
  by_cases hr : "--allow-read=".data.isPrefixOf f.data = true
  · have hw' : ¬ ("--allow-write=".data <+: f.data ++ ',' :: arv.data) := by
      apply not_pre_of_eq_false
      exact no_write_after_read f.data (',' :: arv.data) hr
    have hwf : "--allow-write=".data.isPrefixOf f.data = false := by
      have := no_write_after_read f.data [] hr
      rwa [List.append_nil] at this
    simp [processFlag, mutateFlag, readFoundFlag, writeFoundFlag, hr, hw',
      hwf]
  · rw [Bool.not_eq_true] at hr
    by_cases hw : "--allow-write=".data.isPrefixOf f.data = true
    · have hrf : "--allow-read=".data.isPrefixOf f.data = false := hr
      simp [processFlag, mutateFlag, readFoundFlag, writeFoundFlag, hrf, hw]
    · rw [Bool.not_eq_true] at hw
      simp [processFlag, mutateFlag, readFoundFlag, writeFoundFlag, hr, hw]

/-- Closed form of the composer: the caller's flags, in order, each
transformed by `mutateFlag`, followed by a fresh `--allow-read=` flag if no
flag of the read category was seen, then a fresh `--allow-write=` flag if
no flag of the write category was seen. -/
theorem prepareGo_eq (arv awv : String) (fs : List String) (r w : Bool) :
    prepareGo arv awv fs r w =
      fs.map (fun f => mutateFlag f arv awv) ++
        ((if !(r || fs.any readFoundFlag) then ["--allow-read=" ++ arv]
          else []) ++
         (if !(w || fs.any writeFoundFlag) then ["--allow-write=" ++ awv]
          else [])) := by
  induction fs generalizing r w with
  | nil => simp [prepareGo]
  | cons f fs ih =>
    simp only [prepareGo, processFlag_eq, ih, List.map_cons, List.any_cons,
      List.cons_append]
    simp [Bool.or_assoc]

theorem prepareRunFlags_eq (runFlags : List String) (arv socket : String) :
    prepareRunFlags runFlags arv socket =
      runFlags.map (fun f => mutateFlag f arv socket) ++
        ((if !runFlags.any readFoundFlag then ["--allow-read=" ++ arv]
          else []) ++
         (if !runFlags.any writeFoundFlag then ["--allow-write=" ++ socket]
          else [])) := by
  simpa using prepareGo_eq arv socket runFlags false false

theorem grantsRead_prepare (flags : List String) (arv socket : String)
    (harv : socket.data ∈ splitComma arv.data) :
    grantsRead (prepareRunFlags flags arv socket) socket := by
  rw [prepareRunFlags_eq]
  by_cases hf : flags.any readFoundFlag = true
  · rw [List.any_eq_true] at hf
    obtain ⟨f, hfm, hff⟩ := hf
    unfold readFoundFlag at hff
    rw [Bool.or_eq_true, Bool.or_eq_true] at hff
    rcases hff with (h1 | h1) | h1
    · replace h1 : f = "--allow-read" := by simpa using h1
      subst h1
      refine ⟨"--allow-read", ?_, Or.inl rfl⟩
      refine List.mem_append_left _ ?_
      exact List.mem_map.2 ⟨"--allow-read", hfm, rfl⟩
    · replace h1 : f = "--allow-all" := by simpa using h1
      subst h1
      refine ⟨"--allow-all", ?_, Or.inr (Or.inl rfl)⟩
      refine List.mem_append_left _ ?_
      exact List.mem_map.2 ⟨"--allow-all", hfm, rfl⟩
    · have hmf : mutateFlag f arv socket = f ++ "," ++ arv := by
        unfold mutateFlag
        rw [h1]
        simp
      refine ⟨f ++ "," ++ arv, ?_, Or.inr (Or.inr ⟨?_, ?_⟩)⟩
      · refine List.mem_append_left _ ?_
        exact List.mem_map.2 ⟨f, hfm, hmf⟩
      · rw [ List.isPrefixOf_iff_prefix] at h1 ⊢
        obtain ⟨t, ht⟩ := h1
        rw [data_of_append_comma, ← ht, List.append_assoc]
        exact ⟨t ++ ',' :: arv.data, rfl⟩
      · rw [ List.isPrefixOf_iff_prefix] at h1
        obtain ⟨t, ht⟩ := h1
        rw [data_of_append_comma, ← ht, List.append_assoc]
        have hlen : ("--allow-read=".data).length = 13 := by decide
        rw [← hlen, List.drop_left, splitComma_append]
        exact List.mem_append_right _ harv
  · refine ⟨"--allow-read=" ++ arv, ?_, Or.inr (Or.inr ⟨?_, ?_⟩)⟩
    · refine List.mem_append_right _ (List.mem_append_left _ ?_)
      rw [Bool.not_eq_true] at hf
      simp [hf]
    · rw [String.data_append, List.isPrefixOf_iff_prefix]
      exact ⟨arv.data, rfl⟩
    · rw [String.data_append]
      have hlen : ("--allow-read=".data).length = 13 := by decide
      rw [← hlen, List.drop_left]
      exact harv

theorem grantsWrite_prepare (flags : List String) (arv socket : String)
    (hsock : ',' ∉ socket.data) :
    grantsWrite (prepareRunFlags flags arv socket) socket := by
  have hself : socket.data ∈ splitComma socket.data := by
    rw [splitComma_of_not_mem socket.data hsock]
    exact List.mem_singleton.2 rfl
  rw [prepareRunFlags_eq]
  by_cases hf : flags.any writeFoundFlag = true
  · rw [List.any_eq_true] at hf
    obtain ⟨f, hfm, hff⟩ := hf
    unfold writeFoundFlag at hff
    rw [Bool.or_eq_true, Bool.or_eq_true] at hff
    rcases hff with (h1 | h1) | h1
    · replace h1 : f = "--allow-write" := by simpa using h1
      subst h1
      refine ⟨"--allow-write", ?_, Or.inl rfl⟩
      refine List.mem_append_left _ ?_
      exact List.mem_map.2 ⟨"--allow-write", hfm, rfl⟩
    · replace h1 : f = "--allow-all" := by simpa using h1
      subst h1
      refine ⟨"--allow-all", ?_, Or.inr (Or.inl rfl)⟩
      refine List.mem_append_left _ ?_
      exact List.mem_map.2 ⟨"--allow-all", hfm, rfl⟩
    · have hrf : "--allow-read=".data.isPrefixOf f.data = false := by
        have := no_read_after_write f.data [] h1
        rwa [List.append_nil] at this
      have hmf : mutateFlag f arv socket = f ++ "," ++ socket := by
        unfold mutateFlag
        rw [hrf, h1]
        simp
      refine ⟨f ++ "," ++ socket, ?_, Or.inr (Or.inr ⟨?_, ?_⟩)⟩
      · refine List.mem_append_left _ ?_
        exact List.mem_map.2 ⟨f, hfm, hmf⟩
      · rw [ List.isPrefixOf_iff_prefix] at h1 ⊢
        obtain ⟨t, ht⟩ := h1
        rw [data_of_append_comma, ← ht, List.append_assoc]
        exact ⟨t ++ ',' :: socket.data, rfl⟩
      · rw [ List.isPrefixOf_iff_prefix] at h1
        obtain ⟨t, ht⟩ := h1
        rw [data_of_append_comma, ← ht, List.append_assoc]
        have hlen : ("--allow-write=".data).length = 14 := by decide
        rw [← hlen, List.drop_left, splitComma_append]
        exact List.mem_append_right _ hself
  · refine ⟨"--allow-write=" ++ socket, ?_, Or.inr (Or.inr ⟨?_, ?_⟩)⟩
    · refine List.mem_append_right _ (List.mem_append_right _ ?_)
      rw [Bool.not_eq_true] at hf
      simp [hf]
    · rw [String.data_append, List.isPrefixOf_iff_prefix]
      exact ⟨socket.data, rfl⟩
    · rw [String.data_append]
      have hlen : ("--allow-write=".data).length = 14 := by decide
      rw [← hlen, List.drop_left]
      exact hself

/-- Claim C5 helper: when the caller's flags contain no enumerated allow
flag, and both categories are satisfied by unrestricted flags, the
composer returns the flag list unchanged. -/
theorem prepareRunFlags_id (flags : List String) (arv socket : String)
    (hnoenum : ∀ f ∈ flags, "--allow-read=".data.isPrefixOf f.data = false ∧
      "--allow-write=".data.isPrefixOf f.data = false)
    (hr : flags.any (fun f => f = "--allow-read" || f = "--allow-all") = true)
    (hw : flags.any (fun f => f = "--allow-write" || f = "--allow-all") = true) :
    prepareRunFlags flags arv socket = flags := by
  rw [prepareRunFlags_eq]
  have hid : ∀ f ∈ flags, mutateFlag f arv socket = id f := by
    intro f hf
    unfold mutateFlag
    rw [(hnoenum f hf).1, (hnoenum f hf).2]
    simp
  have hmap : flags.map (fun f => mutateFlag f arv socket) = flags := by
    rw [List.map_congr_left hid, List.map_id]
  have hrf : flags.any readFoundFlag = true := by
    rw [List.any_eq_true] at hr ⊢
    obtain ⟨f, hfm, hfp⟩ := hr
    exact ⟨f, hfm, by unfold readFoundFlag; rw [Bool.or_eq_true]; exact Or.inl hfp⟩
  have hwf : flags.any writeFoundFlag = true := by
    rw [List.any_eq_true] at hw ⊢
    obtain ⟨f, hfm, hfp⟩ := hw
    exact ⟨f, hfm, by unfold writeFoundFlag; rw [Bool.or_eq_true]; exact Or.inl hfp⟩
  rw [hmap, hrf, hwf]
  simp

/-- Claim C4 (amended): for every caller-supplied flag list, the composer
output is the caller flags in their original order and number, each
enumerated `--allow-read=`/`--allow-write=` flag extended by appending the
required value — unconditionally, even if its list already enumerates the
path — followed by a fresh `--allow-read=` flag when no read-category flag
was present and a fresh `--allow-write=` flag when no write-category flag
was present (an unrestricted flag suppresses the fresh addition); the
result grants read and write access to the socket path. -/
theorem c4_flag_composition (flags : List String) (arv socket : String)
    (hsock : ',' ∉ socket.data) (harv : socket.data ∈ splitComma arv.data) :
    prepareRunFlags flags arv socket =
      flags.map (fun f => mutateFlag f arv socket) ++
        ((if !flags.any readFoundFlag then ["--allow-read=" ++ arv]
          else []) ++
         (if !flags.any writeFoundFlag then ["--allow-write=" ++ socket]
          else [])) ∧
    grantsRead (prepareRunFlags flags arv socket) socket ∧
    grantsWrite (prepareRunFlags flags arv socket) socket :=
  ⟨prepareRunFlags_eq flags arv socket,
    grantsRead_prepare flags arv socket harv,
    grantsWrite_prepare flags arv socket hsock⟩

/-- Witness for C4: a concrete run of the composer on a flag list with one
enumerated read flag. -/
theorem c4_flag_composition_witness :
    grantsRead (prepareRunFlags ["--allow-read=/x"] "s" "s") "s" ∧
    grantsWrite (prepareRunFlags ["--allow-read=/x"] "s" "s") "s" :=
  (c4_flag_composition ["--allow-read=/x"] "s" "s" (by decide) (by decide)).2

/-- Counterexample to C4 as stated: the flag `--allow-read=s` already
enumerates the path `s`, yet the composer appends `,s` to it anyway — the
claim said the path is appended only if the list does not already
enumerate it. -/
theorem c4_counterexample :
    "s".data ∈ splitComma (("--allow-read=s").data.drop 13) ∧
    prepareRunFlags ["--allow-read=s"] "s" "s" =
      ["--allow-read=s,s", "--allow-write=s"] := by
  constructor
  · decide
  · decide

/-- Counterexample to C5 as stated: composition is not idempotent — on the
empty flag list the first application adds `--allow-read=a` and
`--allow-write=s`, and the second application appends `,a` and `,s` to
them again. -/
theorem c5_counterexample :
    prepareRunFlags (prepareRunFlags [] "a" "s") "a" "s" ≠
      prepareRunFlags [] "a" "s" := by
  decide

/-- A list mapped onto itself fixes each of its members. -/
theorem map_eq_self_mem {α : Type} {f : α → α} (l : List α)
    (h : l.map f = l) : ∀ x ∈ l, f x = x := by
  induction l with
  | nil =>
    intro x hx
    cases hx
  | cons a as ih =>
    intro x hx
    rw [List.map_cons, List.cons.injEq] at h
    rcases List.mem_cons.1 hx with rfl | hx2
    · exact h.1
    · exact ih h.2 x hx2

/-- The loop body strictly lengthens every enumerated allow flag (it
appends at least the comma), so it never fixes one. -/
theorem mutateFlag_ne_of_enumerated (f arv socket : String)
    (h : "--allow-read=".data.isPrefixOf f.data = true ∨
      "--allow-write=".data.isPrefixOf f.data = true) :
    mutateFlag f arv socket ≠ f := by
  intro heq
  unfold mutateFlag at heq
  rcases h with h | h
  · rw [if_pos h] at heq
    have hd := congrArg String.data heq
    rw [data_of_append_comma] at hd
    have hl := congrArg List.length hd
    rw [List.length_append, List.length_cons] at hl
    omega
  · have hr : "--allow-read=".data.isPrefixOf f.data = false := by
      have h0 := no_read_after_write f.data [] h
      rwa [List.append_nil] at h0
    rw [if_neg (by simp [hr]), if_pos h] at heq
    have hd := congrArg String.data heq
    rw [data_of_append_comma] at hd
    have hl := congrArg List.length hd
    rw [List.length_append, List.length_cons] at hl
    omega

/-- When the idempotence conditions fail — some caller flag is enumerated,
or one of the two categories lacks an unrestricted grant — the composer
output contains an enumerated allow flag (a mutated caller flag or one of
the freshly pushed ones). -/
theorem out_has_enumerated (flags : List String) (arv socket : String)
    (h : ¬ ((∀ f ∈ flags,
        "--allow-read=".data.isPrefixOf f.data = false ∧
        "--allow-write=".data.isPrefixOf f.data = false) ∧
      flags.any (fun f => f = "--allow-read" || f = "--allow-all") = true ∧
      flags.any (fun f => f = "--allow-write" || f = "--allow-all") = true)) :
    ∃ f ∈ prepareRunFlags flags arv socket,
      "--allow-read=".data.isPrefixOf f.data = true ∨
      "--allow-write=".data.isPrefixOf f.data = true := by
  by_cases hEnum : ∃ f ∈ flags,
      "--allow-read=".data.isPrefixOf f.data = true ∨
      "--allow-write=".data.isPrefixOf f.data = true
  · obtain ⟨f, hf, hp⟩ := hEnum
    refine ⟨mutateFlag f arv socket, ?_, ?_⟩
    · rw [prepareRunFlags_eq]
      exact List.mem_append_left _ (List.mem_map.2 ⟨f, hf, rfl⟩)
    · rcases hp with hp | hp
      · left
        unfold mutateFlag
        rw [if_pos hp]
        rw [ List.isPrefixOf_iff_prefix] at hp ⊢
        obtain ⟨t, ht⟩ := hp
        rw [data_of_append_comma, ← ht, List.append_assoc]
        exact ⟨t ++ ',' :: arv.data, rfl⟩
      · right
        have hr : "--allow-read=".data.isPrefixOf f.data = false := by
          have h0 := no_read_after_write f.data [] hp
          rwa [List.append_nil] at h0
        unfold mutateFlag
        rw [if_neg (by simp [hr]), if_pos hp]
        rw [ List.isPrefixOf_iff_prefix] at hp ⊢
        obtain ⟨t, ht⟩ := hp
        rw [data_of_append_comma, ← ht, List.append_assoc]
        exact ⟨t ++ ',' :: socket.data, rfl⟩
  · push_neg at hEnum
    simp only [Bool.not_eq_true] at hEnum
    have hNo : ∀ f ∈ flags,
        "--allow-read=".data.isPrefixOf f.data = false ∧
        "--allow-write=".data.isPrefixOf f.data = false := hEnum
    by_cases hB : flags.any
        (fun f => f = "--allow-read" || f = "--allow-all") = true
    · have hC : ¬ flags.any
          (fun f => f = "--allow-write" || f = "--allow-all") = true :=
        fun hc => h ⟨hNo, hB, hc⟩
      rw [Bool.not_eq_true, List.any_eq_false] at hC
      have hwf : flags.any writeFoundFlag = false := by
        rw [List.any_eq_false]
        intro f hf
        have h1 := hC f hf
        unfold writeFoundFlag
        rw [(hNo f hf).2]
        simpa using h1
      refine ⟨"--allow-write=" ++ socket, ?_, Or.inr ?_⟩
      · rw [prepareRunFlags_eq]
        refine List.mem_append_right _ (List.mem_append_right _ ?_)
        rw [hwf]
        simp
      · rw [String.data_append, List.isPrefixOf_iff_prefix]
        exact ⟨socket.data, rfl⟩
    · rw [Bool.not_eq_true, List.any_eq_false] at hB
      have hrf : flags.any readFoundFlag = false := by
        rw [List.any_eq_false]
        intro f hf
        have h1 := hB f hf
        unfold readFoundFlag
        rw [(hNo f hf).1]
        simpa using h1
      refine ⟨"--allow-read=" ++ arv, ?_, Or.inl ?_⟩
      · rw [prepareRunFlags_eq]
        refine List.mem_append_right _ (List.mem_append_left _ ?_)
        rw [hrf]
        simp
      · rw [String.data_append, List.isPrefixOf_iff_prefix]
        exact ⟨arv.data, rfl⟩

/-- An output containing an enumerated allow flag is never a fixed point:
the second application appends the value to that flag again. -/
theorem not_idempotent_of_enumerated (flags : List String)
    (arv socket : String)
    (henum : ∃ f ∈ prepareRunFlags flags arv socket,
      "--allow-read=".data.isPrefixOf f.data = true ∨
      "--allow-write=".data.isPrefixOf f.data = true) :
    prepareRunFlags (prepareRunFlags flags arv socket) arv socket ≠
      prepareRunFlags flags arv socket := by
  intro hid
  rw [prepareRunFlags_eq] at hid
  have h2 := congrArg
    (List.take ((prepareRunFlags flags arv socket).map
      (fun f => mutateFlag f arv socket)).length) hid
  rw [List.take_left, List.length_map, List.take_length] at h2
  obtain ⟨f0, hf0, hp⟩ := henum
  exact mutateFlag_ne_of_enumerated f0 arv socket hp
    (map_eq_self_mem _ h2 f0 hf0)

/-- Claim C5 (amended): the flag composition is idempotent exactly on flag
lists whose read and write requirements are both met by unrestricted flags
(`--allow-read`/`--allow-write`/`--allow-all`) and which contain no
enumerated allow flag — on such lists it is the identity; on every other
list the output contains an enumerated allow flag and the second
application appends the required value to it again, so the composition is
not idempotent there. -/
theorem c5_idempotence_characterization (flags : List String)
    (arv socket : String) :
    (prepareRunFlags (prepareRunFlags flags arv socket) arv socket =
      prepareRunFlags flags arv socket) ↔
    ((∀ f ∈ flags, "--allow-read=".data.isPrefixOf f.data = false ∧
        "--allow-write=".data.isPrefixOf f.data = false) ∧
      flags.any (fun f => f = "--allow-read" || f = "--allow-all") = true ∧
      flags.any (fun f => f = "--allow-write" || f = "--allow-all") = true) := by
  constructor
  · intro hid
    by_contra hcond
    exact not_idempotent_of_enumerated flags arv socket
      (out_has_enumerated flags arv socket hcond) hid
  · rintro ⟨h1, h2, h3⟩
    rw [prepareRunFlags_id flags arv socket h1 h2 h3,
      prepareRunFlags_id flags arv socket h1 h2 h3]

/-- Witness for C5 (amended): `["--allow-all"]` satisfies the conditions
of the characterization and is a fixed point of the composition. -/
theorem c5_idempotence_characterization_witness :
    prepareRunFlags (prepareRunFlags ["--allow-all"] "a" "s") "a" "s" =
      prepareRunFlags ["--allow-all"] "a" "s" :=
  (c5_idempotence_characterization ["--allow-all"] "a" "s").2
    ⟨by decide, by decide, by decide⟩

/-- Claim C3: every request built by `request`/`json_request` carries the
intended remote URL in `X-Deno-Worker-URL`; a caller header whose key
case-insensitively equals `host` is delivered as `X-Deno-Worker-Host`, one
that equals `connection` as `X-Deno-Worker-Connection`; every other caller
header passes through unchanged; and no delivered header key
case-insensitively equals `host` or `connection`. -/
theorem c3_header_policy (url : String) (headers : List (String × String)) :
    ("X-Deno-Worker-URL", url) ∈ buildRequestHeaders url headers ∧
    (∀ k v, (k, v) ∈ headers → lowerStr k = "host" →
      ("X-Deno-Worker-Host", v) ∈ buildRequestHeaders url headers) ∧
    (∀ k v, (k, v) ∈ headers → lowerStr k = "connection" →
      ("X-Deno-Worker-Connection", v) ∈ buildRequestHeaders url headers) ∧
    (∀ k v, (k, v) ∈ headers → lowerStr k ≠ "host" →
      lowerStr k ≠ "connection" →
      (k, v) ∈ buildRequestHeaders url headers) ∧
    (∀ k v, (k, v) ∈ buildRequestHeaders url headers →
      lowerStr k ≠ "host" ∧ lowerStr k ≠ "connection") := by
  refine ⟨List.mem_cons_self _ _, ?_, ?_, ?_, ?_⟩
  · intro k v hm hk
    refine List.mem_cons_of_mem _ (List.mem_map.2 ⟨(k, v), hm, ?_⟩)
    simp [transformHeader, hk]
  · intro k v hm hk
    refine List.mem_cons_of_mem _ (List.mem_map.2 ⟨(k, v), hm, ?_⟩)
    by_cases hh : lowerStr k = "host"
    · rw [hh] at hk
      exact absurd hk (by decide)
    · simp [transformHeader, hh, hk]
  · intro k v hm hk1 hk2
    refine List.mem_cons_of_mem _ (List.mem_map.2 ⟨(k, v), hm, ?_⟩)
    simp [transformHeader, hk1, hk2]
  · intro k v hm
    rcases List.mem_cons.1 hm with h | h
    · have hk : k = "X-Deno-Worker-URL" := congrArg Prod.fst h
      subst hk
      exact ⟨by decide, by decide⟩
    · obtain ⟨⟨k0, v0⟩, hm0, heq⟩ := List.mem_map.1 h
      unfold transformHeader at heq
      by_cases h1 : lowerStr k0 = "host"
      · rw [if_pos h1] at heq
        have hk : k = "X-Deno-Worker-Host" := congrArg Prod.fst heq.symm
        subst hk
        exact ⟨by decide, by decide⟩
      · rw [if_neg h1] at heq
        by_cases h2 : lowerStr k0 = "connection"
        · rw [if_pos h2] at heq
          have hk : k = "X-Deno-Worker-Connection" := congrArg Prod.fst heq.symm
          subst hk
          exact ⟨by decide, by decide⟩
        · rw [if_neg h2] at heq
          have hk : k = k0 := congrArg Prod.fst heq.symm
          subst hk
          exact ⟨h1, h2⟩

/-- Witness for C3: a caller `Host` header at a concrete input comes out as
`X-Deno-Worker-Host`. -/
theorem c3_header_policy_witness :
    ("X-Deno-Worker-Host", "fish") ∈
      buildRequestHeaders "https://u" [("Host", "fish")] :=
  (c3_header_policy "https://u" [("Host", "fish")]).2.1 "Host" "fish"
    (List.mem_singleton.2 rfl) (by decide)

theorem takes_step_le (s : WorkerState) (a : Act) :
    (if takesChild s a then 1 else 0) +
      (if (stepAct s a).slot.isSome then 1 else 0) ≤
      (if s.slot.isSome then 1 else 0) := by
  cases a <;> rcases hs : s.slot with _ | c <;>
    simp [takesChild, stepAct, hs]

theorem countTakes_le (acts : List Act) :
    ∀ s : WorkerState, countTakes s acts ≤ if s.slot.isSome then 1 else 0 := by
  induction acts with
  | nil =>
    intro s
    simp [countTakes]
  | cons a as ih =>
    intro s
    have h1 := takes_step_le s a
    have h2 := ih (stepAct s a)
    simp only [countTakes]
    omega

theorem sent_length_bounds (acts : List Act) :
    ∀ s : WorkerState,
      s.sent.length + countTerminate acts ≤ (runActs s acts).sent.length ∧
      (runActs s acts).sent.length ≤
        s.sent.length + countTerminate acts +
          (if s.slot.isSome then 1 else 0) := by
  induction acts with
  | nil =>
    intro s
    simp [runActs, countTerminate]
  | cons a as ih =>
    intro s
    have h2 := ih (stepAct s a)
    rcases hs : s.slot with _ | c <;> cases a <;>
      simp only [runActs, countTerminate, List.countP_cons, isTerminate,
        stepAct, hs, classify] at h2 ⊢ <;>
      simp at h2 ⊢ <;> omega

/-- Counterexample to C1 as stated: running the terminate task twice from
the fresh state sends two exit notifications — the send in `terminate`
(lib.rs:364) is outside the `if let Some` and fires on every call. -/
theorem c1_counterexample :
    ¬ (runActs initState [Act.terminate, Act.terminate]).sent.length ≤ 1 := by
  decide

/-- Claim C1 (amended): calling `terminate()` repeatedly produces no error
and the process itself is taken (killed or reaped) at most once — the
second call finds the slot empty — but every terminate run performs its
own broadcast send, so over any interleaving of the monitor, terminate
and shutdown bodies the number of exit notifications sent is at least the
number of terminate runs and at most that number plus one (the monitor's
single send); it is not "at most once per handle lifetime". -/
theorem c1_exit_notification_count (acts : List Act) :
    countTerminate acts ≤ (runActs initState acts).sent.length ∧
    (runActs initState acts).sent.length ≤ countTerminate acts + 1 ∧
    countTakes initState acts ≤ 1 := by
  have h1 := sent_length_bounds acts initState
  have h2 := countTakes_le acts initState
  simp only [initState] at h1 h2
  simp at h1 h2
  exact ⟨h1.1, h1.2, h2⟩

/-- Claim C7: the exit monitor sends exactly one ExitOutcome per observed
process termination (it observes one exactly when it finds the child in
the slot), classified so that a normal exit `Ok(status)` yields
`(status.code(), "")` — in particular a numeric code with empty signal
string — and a wait error yields `(None, "SIGKILL")`; when the slot is
already empty it sends nothing. -/
theorem c7_monitor_single_send (s : WorkerState) (w : WaitRes) :
    (s.slot.isSome = true →
      (stepAct s (Act.monitor w)).sent = s.sent ++ [classify w]) ∧
    (s.slot = none → (stepAct s (Act.monitor w)).sent = s.sent) ∧
    (∀ c, classify (WaitRes.ok c) = (c, "")) ∧
    classify WaitRes.err = (none, "SIGKILL") := by
  refine ⟨?_, ?_, fun c => rfl, rfl⟩
  · intro h
    rcases hs : s.slot with _ | c
    · rw [hs] at h
      cases h
    · simp [stepAct, hs]
  · intro h
    simp [stepAct, h]

/-- Witness for C7: from the fresh state, a monitor observing a normal
exit with code 0 appends exactly the classified outcome. -/
theorem c7_monitor_single_send_witness :
    (stepAct initState (Act.monitor (WaitRes.ok (some 0)))).sent =
      initState.sent ++ [classify (WaitRes.ok (some 0))] :=
  (c7_monitor_single_send initState (WaitRes.ok (some 0))).1 rfl

/-- Claim C9: over any interleaving of the three actors' bodies, the child
is taken out of the mutex-guarded slot at most once; an actor that meets
an empty slot takes nothing and leaves it empty; and `shutdown` never
takes the slot at all (it only signals the child in place). -/
theorem c9_single_owner (acts : List Act) :
    countTakes initState acts ≤ 1 ∧
    (∀ (s : WorkerState) (a : Act), s.slot = none →
      takesChild s a = false ∧ (stepAct s a).slot = none) ∧
    (∀ s : WorkerState, takesChild s Act.shutdown = false) := by
  refine ⟨?_, ?_, fun s => rfl⟩
  · have h := countTakes_le acts initState
    simpa [initState] using h
  · intro s a h
    cases a <;> simp [takesChild, stepAct, h]

/-- Witness for C9: with the slot already emptied, a terminate run takes
nothing; and the double-terminate trace takes the child only once. -/
theorem c9_single_owner_witness :
    takesChild
      { slot := none, running := false, socket := false, sent := [] }
      Act.terminate = false ∧
    countTakes initState [Act.terminate, Act.terminate] ≤ 1 :=
  ⟨((c9_single_owner [Act.terminate, Act.terminate]).2.1
      { slot := none, running := false, socket := false, sent := [] }
      Act.terminate rfl).1,
    (c9_single_owner [Act.terminate, Act.terminate]).1⟩

/-- Claim C2, evaluation at the failing input: spawn succeeds, the socket
never appears, the child does not exit by itself.  `create_worker`
returns the `SocketTimeout` error after steps spawn → waitSocket, yet the
subprocess is still running when it returns: no branch of the
construction path kills it. -/
theorem c2_socket_timeout_leaves_process_running :
    createWorkerT
      { spawnOk := true, socketAppears := false, warmOk := true,
        childExitsEarly := false } =
      ([CStep.spawn, CStep.waitSocket], Except.error WErr.socketTimeout,
        true) := rfl

/-- Claim C6: construction returns a usable handle exactly when spawn,
socket-readiness confirmation and the warm-up request all succeed; the
attempted steps always form a prefix of spawn → waitSocket → warmup (so
the three are strictly ordered and nothing runs after a failure); and on
success all three steps were performed. -/
theorem c6_construction_ordering (env : CreateEnv) :
    ((createWorkerT env).2.1 = Except.ok () ↔
      env.spawnOk = true ∧ env.socketAppears = true ∧ env.warmOk = true) ∧
    (createWorkerT env).1 <+:
      [CStep.spawn, CStep.waitSocket, CStep.warmup] ∧
    ((createWorkerT env).2.1 = Except.ok () →
      (createWorkerT env).1 =
        [CStep.spawn, CStep.waitSocket, CStep.warmup]) := by
  obtain ⟨a, b, c, d⟩ := env
  cases a <;> cases b <;> cases c <;> cases d <;>
    exact ⟨by simp [createWorkerT], ⟨_, rfl⟩, by simp [createWorkerT]⟩

/-- Witness for C6: the all-success environment attempts all three steps
and yields a handle. -/
theorem c6_construction_ordering_witness :
    (createWorkerT
      { spawnOk := true, socketAppears := true, warmOk := true,
        childExitsEarly := false }).1 =
      [CStep.spawn, CStep.waitSocket, CStep.warmup] :=
  (c6_construction_ordering
    { spawnOk := true, socketAppears := true, warmOk := true,
      childExitsEarly := false }).2.2 rfl

/-- Counterexample to C8 as stated: `https://e/m.ts` is not a local file
reference, yet `new_from_url` puts it (unchanged — it contains no
`file://` to strip) into the read allow-list, and the composed flags for
a default options value (`run_flags = []`) grant read permission to it. -/
theorem c8_counterexample :
    "file://".data.isPrefixOf ("https://e/m.ts").data = false ∧
    grantsRead
      (prepareRunFlags [] (newFromUrlAllowRead "s" "https://e/m.ts") "s")
      "https://e/m.ts" := by
  constructor
  · decide
  · decide

/-- Claim C8 (amended): the allow-read value composed by `new_from_url`
always enumerates both the socket path and the payload with every
`file://` occurrence removed — unconditionally, whether or not the
payload is a local file reference.  For a `file://` URL this grants read
access to the stripped local path; for any other specifier the stripped
specifier string is likewise placed on the read allow-list. -/
theorem c8_from_url_allow_read (socket url : String)
    (hs : ',' ∉ socket.data)
    (hu : ',' ∉ (stripFileScheme url).data) :
    splitComma (newFromUrlAllowRead socket url).data =
      [socket.data, (stripFileScheme url).data] ∧
    (stripFileScheme url).data ∈
      splitComma (newFromUrlAllowRead socket url).data := by
  have h : splitComma (newFromUrlAllowRead socket url).data =
      [socket.data, (stripFileScheme url).data] := by
    unfold newFromUrlAllowRead
    rw [data_of_append_comma, splitComma_append,
      splitComma_of_not_mem _ hs, splitComma_of_not_mem _ hu]
    rfl
  refine ⟨h, ?_⟩
  rw [h]
  simp

/-- Witness for C8 (amended): a concrete `file://` URL — the stripped
local path `/p` ends up on the read allow-list next to the socket path. -/
theorem c8_from_url_allow_read_witness :
    splitComma (newFromUrlAllowRead "s" "file:///p").data =
      ["s".data, "/p".data] := by
  have h := (c8_from_url_allow_read "s" "file:///p" (by decide)
    (by decide)).1
  rw [h]
  decide

/-- Claim C10: `spawn_deno_process` indexes `deno_executable[0]`: with an
empty executable list it panics (it does not return a launch-failure
error), and with a non-empty list the index is in bounds and the call
either spawns the assembled command line or surfaces the io error. -/
theorem c10_spawn_indexing (spawnOk : Bool) (exe runFlags scriptArgs :
    List String) (bootstrap : String) :
    (exe = [] →
      spawnDenoProcess spawnOk exe runFlags bootstrap scriptArgs =
        SpawnResult.panicked) ∧
    (exe ≠ [] → 0 < exe.length ∧
      spawnDenoProcess spawnOk exe runFlags bootstrap scriptArgs ≠
        SpawnResult.panicked ∧
      (spawnDenoProcess spawnOk exe runFlags bootstrap scriptArgs =
          SpawnResult.spawnErr ∨
        ∃ cmd args,
          spawnDenoProcess spawnOk exe runFlags bootstrap scriptArgs =
            SpawnResult.spawned cmd args)) := by
  constructor
  · intro h
    subst h
    rfl
  · intro h
    rcases exe with _ | ⟨cmd, rest⟩
    · exact absurd rfl h
    · refine ⟨Nat.succ_pos _, ?_, ?_⟩
      · cases spawnOk <;> simp [spawnDenoProcess]
      · cases spawnOk
        · exact Or.inl rfl
        · exact Or.inr ⟨cmd, _, rfl⟩

/-- Witness for C10: a concrete non-empty executable list spawns the
expected command line. -/
theorem c10_spawn_indexing_witness :
    spawnDenoProcess true ["deno"] ["--allow-all"] "b.ts"
      ["w.sock", "script", "code"] ≠ SpawnResult.panicked :=
  ((c10_spawn_indexing true ["deno"] ["--allow-all"]
    ["w.sock", "script", "code"] "b.ts").2 (by decide)).2.1

end DenoWorker
